import Mathlib

/-!
# Verification of the Cyber-Parc intranet backend

A shallow embedding of the Express/PostgreSQL backend
(`backend/.tmp-db-inspect.cjs`, server part) in Lean 4.

The relational store is modelled as lists of rows; each HTTP handler
becomes a pure function from the request payload and the database state
to a response together with the successor state.  SQL queries are
interpreted as list operations (`filter`, `find?`, `insertionSort`,
`take`); the `bcrypt` comparison is an abstract boolean parameter, and
the request-time failure of a database query is an explicit oracle
argument where a claim depends on it.
-/

namespace CyberParc

/-- A row of the `"User"` table. -/
structure User where
  id : Nat
  email : String
  password : String
  role : String
  companyId : Option Nat
  deriving Repr, DecidableEq

/-- A row of the `"Company"` table (all optional columns present). -/
structure Company where
  id : Nat
  name : String
  industry : Option String := none
  location : Option String := none
  website : Option String := none
  email : Option String := none
  phone : Option String := none
  status : Option String := none
  description : Option String := none
  deriving Repr, DecidableEq

/-- A row of the `"Post"` table; `authorId` references `"Company"`. -/
structure Post where
  id : Nat
  title : String
  content : String
  category : Option String := none
  authorId : Nat
  createdAt : Nat
  deriving Repr, DecidableEq

/-- A row of the `"Comment"` table; in the repository's schema the
`authorId` column references `"Company"` (the admin summary joins
`Comment."authorId"` to `Company.id`). -/
structure Comment where
  id : Nat
  content : String
  authorId : Nat
  postId : Nat
  createdAt : Nat
  deriving Repr, DecidableEq

/-- A row of the `"Message"` table created by `ensureMessagesTable`. -/
structure Message where
  id : Nat
  senderCompanyId : Nat
  receiverCompanyId : Nat
  content : String
  createdAt : Nat
  deriving Repr, DecidableEq

/-- The database state: one list of rows per table. -/
structure DB where
  users : List User
  companies : List Company
  posts : List Post
  comments : List Comment
  messages : List Message
  deriving Repr, DecidableEq

/-- JavaScript truthiness of a (possibly absent) numeric field:
`0`, `NaN` and `null`/`undefined` are falsy. -/
def truthyNat : Option Nat → Option Nat
  | some n => if n = 0 then none else some n
  | none => none

/-- JavaScript truthiness of a string: only `''` is falsy. -/
def truthyStr (s : String) : Bool := s ≠ ""

/-- JavaScript's `String.prototype.toLowerCase` (and SQL's `LOWER`),
embedded structurally over the character list. -/
def jsToLower (s : String) : String := String.mk (s.data.map Char.toLower)

/-- JavaScript's `String.prototype.trim`: strip leading and trailing
whitespace. -/
def jsTrim (s : String) : String :=
  String.mk
    (((s.data.dropWhile Char.isWhitespace).reverse.dropWhile Char.isWhitespace).reverse)

/-! ## `POST /api/auth/login` -/

/-- The reduced user record built by the login handler
(`safeUser = { id, email, role, companyId }`). -/
structure SafeUser where
  id : Nat
  email : String
  role : String
  companyId : Option Nat
  deriving Repr, DecidableEq

/-- Outcome of the login handler. -/
inductive LoginResult
  | badRequest (message : String)
  | unauthorized (message : String)
  | ok (token : String) (user : SafeUser)
  deriving Repr, DecidableEq

/-- `email.trim().toLowerCase()` applied to the request body's email. -/
def normalizeEmail (email : String) : String := jsToLower (jsTrim email)

/-- The SQL lookup `SELECT … FROM "User" WHERE LOWER(email) = $1 LIMIT 1`. -/
def findUserByEmail (db : DB) (normalized : String) : Option User :=
  db.users.find? (fun u => jsToLower u.email = normalized)

/-- The role-mismatch test of the login handler: the requested role is
lowercased, an empty requested role is falsy and skips the check, and
the stored role is compared lowercased. -/
def roleMismatch (role : Option String) (userRole : String) : Bool :=
  match role with
  | none => false
  | some r => if jsToLower r = "" then false else jsToLower userRole ≠ jsToLower r

/-- The `POST /api/auth/login` handler.  `compare` stands for
`bcrypt.compare` (password-hashing mechanics are out of scope). -/
def login (compare : String → String → Bool) (db : DB)
    (email password : String) (role : Option String) : LoginResult :=
  let normalizedEmail := normalizeEmail email
  if normalizedEmail = "" ∨ password = "" then
    .badRequest "Email and password are required."
  else
    match findUserByEmail db normalizedEmail with
    | none => .unauthorized "Invalid credentials."
    | some user =>
      if roleMismatch role user.role then
        .unauthorized "Invalid role for this account."
      else if ¬ compare password user.password then
        .unauthorized "Invalid credentials."
      else
        .ok "dev-session-token"
          ⟨user.id, user.email, jsToLower user.role, user.companyId⟩

/-! ## `GET /api/messages` and `POST /api/messages` -/

/-- A row of the message-listing response: the message joined with the
sender and receiver companies (`JOIN "Company" cs … JOIN "Company" cr …`). -/
structure MessageRow where
  id : Nat
  content : String
  createdAt : Nat
  senderCompanyId : Nat
  receiverCompanyId : Nat
  senderName : String
  receiverName : String
  deriving Repr, DecidableEq

/-- The inner join of one message with the two company tables. -/
def joinMessage (db : DB) (m : Message) : Option MessageRow := do
  let cs ← db.companies.find? (fun c => c.id = m.senderCompanyId)
  let cr ← db.companies.find? (fun c => c.id = m.receiverCompanyId)
  some ⟨m.id, m.content, m.createdAt, m.senderCompanyId, m.receiverCompanyId,
    cs.name, cr.name⟩

/-- `ORDER BY m."createdAt" ASC`. -/
def msgRowAsc (a b : MessageRow) : Prop := a.createdAt ≤ b.createdAt

instance : DecidableRel msgRowAsc := fun a b => Nat.decLe _ _

instance : IsTotal MessageRow msgRowAsc := ⟨fun a b => Nat.le_total _ _⟩

instance : IsTrans MessageRow msgRowAsc := ⟨fun _ _ _ => Nat.le_trans⟩

/-- Outcome of the message-listing handler. -/
inductive ListMessagesResult
  | badRequest (message : String)
  | ok (rows : List MessageRow)
  deriving Repr, DecidableEq

/-- The `GET /api/messages?companyId=…` handler: all messages where the
company is sender or receiver, ascending by creation time. -/
def listMessages (db : DB) (companyId : Nat) : ListMessagesResult :=
  if companyId = 0 then .badRequest "companyId is required."
  else
    .ok (List.insertionSort msgRowAsc
      ((db.messages.filter
          (fun m => m.senderCompanyId = companyId ∨ m.receiverCompanyId = companyId)).filterMap
        (joinMessage db)))

/-- The serial primary key: one more than the largest id in the table. -/
def freshMessageId (db : DB) : Nat :=
  (db.messages.foldr (fun m acc => max m.id acc) 0) + 1

/-- Outcome of the send-message handler. -/
inductive SendMessageResult
  | badRequest (message : String)
  | ok (row : Message)
  deriving Repr, DecidableEq

/-- The `POST /api/messages` handler.  `now` is the insertion timestamp
(`"createdAt" … DEFAULT NOW()`). -/
def sendMessage (db : DB) (now : Nat)
    (senderCompanyId receiverCompanyId : Option Nat) (content : String) :
    SendMessageResult × DB :=
  match truthyNat senderCompanyId, truthyNat receiverCompanyId with
  | some s, some r =>
    if content = "" then
      (.badRequest "senderCompanyId, receiverCompanyId and content are required.", db)
    else
      let m : Message := ⟨freshMessageId db, s, r, content, now⟩
      (.ok m, { db with messages := db.messages ++ [m] })
  | _, _ =>
    (.badRequest "senderCompanyId, receiverCompanyId and content are required.", db)

/-! ## `GET /api/forum/posts` -/

/-- A row of the forum-post listing: the post joined with its authoring
company plus the aggregated comment count. -/
structure PostRow where
  id : Nat
  title : String
  content : String
  category : Option String
  createdAt : Nat
  company : String
  companyId : Nat
  comments : Nat
  deriving Repr, DecidableEq

/-- `ORDER BY p."createdAt" DESC`. -/
def postRowDesc (a b : PostRow) : Prop := b.createdAt ≤ a.createdAt

instance : DecidableRel postRowDesc := fun a b => Nat.decLe _ _

instance : IsTotal PostRow postRowDesc := ⟨fun a b => Nat.le_total _ _⟩

instance : IsTrans PostRow postRowDesc := ⟨fun _ _ _ h h' => Nat.le_trans h' h⟩

/-- The row built for post `p` joined with company `c`:
`COUNT(cm.id)` over the `LEFT JOIN "Comment" cm ON cm."postId" = p.id`. -/
def mkPostRow (db : DB) (p : Post) (c : Company) : PostRow :=
  ⟨p.id, p.title, p.content, p.category, p.createdAt, c.name, c.id,
    (db.comments.filter (fun cm => cm.postId = p.id)).length⟩

/-- The `GET /api/forum/posts` handler: `JOIN "Company" c ON c.id =
p."authorId"`, comment counts, `ORDER BY p."createdAt" DESC LIMIT 100`. -/
def listForumPosts (db : DB) : List PostRow :=
  (List.insertionSort postRowDesc
    (db.posts.filterMap
      (fun p => (db.companies.find? (fun c => c.id = p.authorId)).map
        (mkPostRow db p)))).take 100

/-! ## `POST /api/forum/posts` -/

/-- `let resolvedCompanyId = companyId ? Number(companyId) : null;
if (!resolvedCompanyId && userId) { … SELECT "companyId" FROM "User" … }`. -/
def resolveEffectiveCompany (db : DB) (companyId userId : Option Nat) : Option Nat :=
  match truthyNat companyId with
  | some c => some c
  | none =>
    match truthyNat userId with
    | some uid =>
      match db.users.find? (fun u => u.id = uid) with
      | some u => u.companyId
      | none => none
    | none => none

/-- The serial primary key of the `"Post"` table. -/
def freshPostId (db : DB) : Nat :=
  (db.posts.foldr (fun p acc => max p.id acc) 0) + 1

/-- The response body of a successful post creation. -/
structure CreatedPost where
  id : Nat
  title : String
  content : String
  category : Option String
  createdAt : Nat
  companyId : Nat
  comments : Nat
  deriving Repr, DecidableEq

/-- Outcome of the post-creation handler. -/
inductive CreatePostResult
  | badRequest (message : String)
  | ok (row : CreatedPost)
  deriving Repr, DecidableEq

/-- The `POST /api/forum/posts` handler (`title`, `content`, `category`,
`companyId`, `userId` from the body; `now` is the insertion time). -/
def createPost (db : DB) (now : Nat) (title : String)
    (content category : Option String) (companyId userId : Option Nat) :
    CreatePostResult × DB :=
  if title = "" then (.badRequest "Title is required.", db)
  else
    match truthyNat (resolveEffectiveCompany db companyId userId) with
    | none => (.badRequest "Company is required to create a post.", db)
    | some resolved =>
      match db.companies.find? (fun c => c.id = resolved) with
      | none => (.badRequest "Company not found.", db)
      | some _ =>
        let p : Post :=
          ⟨freshPostId db, title, (content.getD ""),
            (match category with
             | some c => if c = "" then none else some c
             | none => none),
            resolved, now⟩
        (.ok ⟨p.id, p.title, p.content, p.category, p.createdAt, resolved, 0⟩,
          { db with posts := db.posts ++ [p] })

/-! ## Schema variants of the `"Company"` table and `GET /api/companies` -/

/-- Which optional columns the `"Company"` table actually has
(`getTableColumns('Company')`); `id` and `name` are always present. -/
structure CompanySchema where
  industry : Bool
  location : Bool
  website : Bool
  email : Bool
  phone : Bool
  status : Bool
  description : Bool
  deriving Repr, DecidableEq

/-- Reading a column from a row: the database raises an error when the
SQL references a column that does not exist in the schema. -/
def readCol (present : Bool) (v : Option String) : Except String (Option String) :=
  if present then .ok v else .error "column does not exist"

/-- The handler's conditional select: `c.col AS col` when the column
exists, otherwise the literal `NULL::text AS col`. -/
def colSelect (present : Bool) (v : Option String) : Except String (Option String) :=
  if present then readCol present v else .ok none

/-- A row of the public company listing. -/
structure CompanyListRow where
  id : Nat
  name : String
  industry : Option String
  location : Option String
  website : Option String
  email : Option String
  phone : Option String
  status : Option String
  description : Option String
  employees : Nat
  deriving Repr, DecidableEq

/-- The row built for company `c`: conditional selects for the optional
columns and `COUNT(u.id)` over `LEFT JOIN "User" u ON u."companyId" = c.id`. -/
def companyRowOf (schema : CompanySchema) (db : DB) (c : Company) :
    Except String CompanyListRow :=
  (colSelect schema.industry c.industry).bind fun industry =>
  (colSelect schema.location c.location).bind fun location =>
  (colSelect schema.website c.website).bind fun website =>
  (colSelect schema.email c.email).bind fun email =>
  (colSelect schema.phone c.phone).bind fun phone =>
  (colSelect schema.status c.status).bind fun status =>
  (colSelect schema.description c.description).bind fun description =>
  .ok ⟨c.id, c.name, industry, location, website, email, phone, status, description,
    (db.users.filter (fun u => u.companyId = some c.id)).length⟩

instance {ε α : Type} [DecidableEq ε] [DecidableEq α] : DecidableEq (Except ε α) :=
  fun x y =>
    match x, y with
    | .ok a, .ok b =>
      if h : a = b then .isTrue (by rw [h]) else .isFalse (by intro hh; cases hh; exact h rfl)
    | .error a, .error b =>
      if h : a = b then .isTrue (by rw [h]) else .isFalse (by intro hh; cases hh; exact h rfl)
    | .ok _, .error _ => .isFalse (by intro hh; cases hh)
    | .error _, .ok _ => .isFalse (by intro hh; cases hh)

/-- Executing a row-producing query: any row-level error fails the query. -/
def mapExcept (f : α → Except ε β) : List α → Except ε (List β)
  | [] => .ok []
  | a :: l => (f a).bind fun b => (mapExcept f l).bind fun bs => .ok (b :: bs)

/-- Lexicographic comparison of character lists by code point, the
order a SQL text `ORDER BY` induces on ASCII names. -/
def charListLe : List Char → List Char → Bool
  | [], _ => true
  | _ :: _, [] => false
  | a :: as, b :: bs =>
    if a.toNat < b.toNat then true
    else if b.toNat < a.toNat then false
    else charListLe as bs

/-- `ORDER BY c.name ASC`. -/
def companyRowNameAsc (a b : CompanyListRow) : Prop :=
  charListLe a.name.data b.name.data = true

instance : DecidableRel companyRowNameAsc :=
  fun a b => inferInstanceAs (Decidable (_ = true))

/-- The `GET /api/companies` handler, parameterised by the schema variant. -/
def listCompanies (schema : CompanySchema) (db : DB) :
    Except String (List CompanyListRow) :=
  (mapExcept (companyRowOf schema db) db.companies).map
    (List.insertionSort companyRowNameAsc)

/-! ## `POST /api/forum/posts/:id/comments` -/

/-- Which author-related columns the `"Comment"` table has, and whether
the generic `authorId` foreign key targets `"User"` rather than
`"Company"` (`getForeignKeyTarget('Comment', authorIdColumn)`). -/
structure CommentSchema where
  hasPostId : Bool
  hasCreatedAt : Bool
  hasCompanyId : Bool
  hasUserId : Bool
  hasAuthorId : Bool
  authorFkTargetIsUser : Bool
  deriving Repr, DecidableEq

/-- The author column chosen by the comment-creation handler. -/
inductive CommentAuthorCol
  | companyIdCol
  | userIdCol
  | authorIdCol
  deriving Repr, DecidableEq

/-- The author-resolution cascade of the handler: a `companyId` column
wins, then a `userId` column, then the generic `authorId` column whose
foreign-key target decides between the resolved user and the resolved
company.  Returns the chosen column together with its (possibly null)
value. -/
def resolveCommentAuthor (schema : CommentSchema)
    (resolvedCompanyId : Nat) (resolvedUserId : Option Nat) :
    Option (CommentAuthorCol × Option Nat) :=
  if schema.hasCompanyId then
    some (.companyIdCol, some resolvedCompanyId)
  else if schema.hasUserId then
    some (.userIdCol, resolvedUserId)
  else if schema.hasAuthorId then
    if schema.authorFkTargetIsUser then
      some (.authorIdCol, resolvedUserId)
    else
      some (.authorIdCol, some resolvedCompanyId)
  else
    none

/-- Outcome of the comment-creation handler.  The `ok` constructor is
the shape a successful insert would return; the faithful model below
never produces it because the handler dereferences the undeclared
variable `updatedAtColumn` before reaching its `INSERT`. -/
inductive CreateCommentResult
  | badRequest (message : String)
  | serverError (message : String)
  | ok (id : Nat) (content : String)
  deriving Repr, DecidableEq

/-- The `POST /api/forum/posts/:id/comments` handler.  The handler body
declares `postIdColumn`, `createdAtColumn`, `companyIdColumn`,
`userIdColumn` and `authorIdColumn`, but the guard `if (updatedAtColumn)`
it executes before the `INSERT` refers to a variable declared only in
the sibling `GET` handler; in the module's strict-mode scope that read
throws a `ReferenceError`, which the `catch` turns into a 500 response,
so no insert is ever performed. -/
def createComment (schema : CommentSchema) (db : DB)
    (postId : Nat) (content : String) (companyId userId : Option Nat) :
    CreateCommentResult × DB :=
  if postId = 0 ∨ content = "" then
    (.badRequest "Post and content are required.", db)
  else
    match truthyNat (resolveEffectiveCompany db companyId userId) with
    | none => (.badRequest "Company is required to comment.", db)
    | some resolvedCompanyId =>
      match db.companies.find? (fun c => c.id = resolvedCompanyId) with
      | none => (.badRequest "Company not found.", db)
      | some _ =>
        if ¬ schema.hasPostId then
          (.serverError "Comment schema is missing post reference.", db)
        else
          match resolveCommentAuthor schema resolvedCompanyId (truthyNat userId) with
          | none => (.badRequest "Author is required to comment.", db)
          | some (_, none) => (.badRequest "Author is required to comment.", db)
          | some (_, some v) =>
            if v = 0 then (.badRequest "Author is required to comment.", db)
            else (.serverError "updatedAtColumn is not defined", db)

/-! ## `DELETE /api/admin/companies/:id`

With the repository's schema (`User."companyId"`, `Post."authorId"`,
`Comment."postId"`, `Comment."authorId"` referencing `"Company"`), the
handler's `resolveColumn` calls yield `userCompanyColumn = companyId`,
`postAuthorColumn = authorId`, `commentPostColumn = postId`,
`commentAuthorColumn = authorId`, and no `companyId`/`userId` column on
`"Comment"`, so the executed `DELETE`s are: messages by sender/receiver,
comments by author, comments on the company's posts, posts, users, and
finally the company row, all inside one transaction. -/

/-- One `DELETE` statement issued by the company-deletion handler. -/
inductive DelStep
  | messages
  | commentsByAuthor
  | commentsByPost
  | posts
  | users
  | company
  deriving Repr, DecidableEq

/-- The table a deletion step targets, ranked in the claimed dependency
order: messages before comments before posts before users before the
company row. -/
def delRank : DelStep → Nat
  | .messages => 0
  | .commentsByAuthor => 1
  | .commentsByPost => 1
  | .posts => 2
  | .users => 3
  | .company => 4

/-- Outcome of the company-deletion handler. -/
inductive DeleteCompanyResult
  | badRequest (message : String)
  | notFound (message : String)
  | serverError (message : String)
  | ok (id : Nat)
  deriving Repr, DecidableEq

def DeleteCompanyResult.isOk : DeleteCompanyResult → Bool
  | .ok _ => true
  | _ => false

/-- The `DELETE /api/admin/companies/:id` handler.  `failAt = some k`
makes the `k`-th `DELETE` statement throw; the `catch` then issues
`ROLLBACK`, so the returned state is the original one.  The third
component records which `DELETE`s were issued, in order. -/
def deleteCompany (db : DB) (companyId : Nat) (failAt : Option Nat) :
    DeleteCompanyResult × DB × List DelStep :=
  if companyId = 0 then (.badRequest "Invalid company id.", db, [])
  else if failAt = some 0 then (.serverError "Server error.", db, [])
  else
    let msgs1 := db.messages.filter
      (fun m => ¬ (m.senderCompanyId = companyId ∨ m.receiverCompanyId = companyId))
    let db1 : DB := { db with messages := msgs1 }
    if failAt = some 1 then (.serverError "Server error.", db, [.messages])
    else
      let db2 : DB :=
        { db1 with comments := db1.comments.filter (fun c => c.authorId ≠ companyId) }
      if failAt = some 2 then
        (.serverError "Server error.", db, [.messages, .commentsByAuthor])
      else
        let cmts3 := db2.comments.filter
          (fun c => ¬ db2.posts.any (fun p => p.authorId = companyId ∧ p.id = c.postId))
        let db3 : DB := { db2 with comments := cmts3 }
        if failAt = some 3 then
          (.serverError "Server error.", db,
            [.messages, .commentsByAuthor, .commentsByPost])
        else
          let db4 : DB :=
            { db3 with posts := db3.posts.filter (fun p => p.authorId ≠ companyId) }
          if failAt = some 4 then
            (.serverError "Server error.", db,
              [.messages, .commentsByAuthor, .commentsByPost, .posts])
          else
            let users5 := db4.users.filter (fun u => u.companyId ≠ some companyId)
            let db5 : DB := { db4 with users := users5 }
            if failAt = some 5 then
              (.serverError "Server error.", db,
                [.messages, .commentsByAuthor, .commentsByPost, .posts, .users])
            else if ¬ db5.companies.any (fun c => c.id = companyId) then
              (.notFound "Company not found.", db,
                [.messages, .commentsByAuthor, .commentsByPost, .posts, .users, .company])
            else
              (.ok companyId,
                { db5 with companies := db5.companies.filter (fun c => c.id ≠ companyId) },
                [.messages, .commentsByAuthor, .commentsByPost, .posts, .users, .company])

/-! ## `POST /api/admin/companies` -/

/-- The request body of the company-creation handler.  `none` models an
absent (`undefined`) field; `some ""` a field supplied as the empty
string. -/
structure CompanyBody where
  name : Option String := none
  industry : Option String := none
  location : Option String := none
  website : Option String := none
  email : Option String := none
  phone : Option String := none
  status : Option String := none
  description : Option String := none
  password : Option String := none
  deriving Repr, DecidableEq

/-- `value === '' ? null : value`: the empty string is normalised to SQL
`NULL` before being bound into the `INSERT`/`UPDATE`. -/
def normalizeField (v : String) : Option String :=
  if v = "" then none else some v

/-- The value stored for one optional column on insert: skipped when the
column is absent from the schema or the field is undefined, otherwise
the empty string becomes `NULL`. -/
def insertField (present : Bool) (v : Option String) : Option String :=
  if present then
    match v with
    | some s => normalizeField s
    | none => none
  else none

/-- The serial primary key of the `"Company"` table. -/
def freshCompanyId (db : DB) : Nat :=
  (db.companies.foldr (fun c acc => max c.id acc) 0) + 1

/-- The serial primary key of the `"User"` table. -/
def freshUserId (db : DB) : Nat :=
  (db.users.foldr (fun u acc => max u.id acc) 0) + 1

/-- The `"Company"` row inserted by the creation handler. -/
def mkCompany (schema : CompanySchema) (db : DB) (body : CompanyBody)
    (trimmedName : String) : Company :=
  { id := freshCompanyId db
    name := trimmedName
    industry := insertField schema.industry body.industry
    location := insertField schema.location body.location
    website := insertField schema.website body.website
    email := insertField schema.email body.email
    phone := insertField schema.phone body.phone
    status := insertField schema.status body.status
    description := insertField schema.description body.description }

/-- Outcome of the company-creation handler. -/
inductive CreateCompanyResult
  | badRequest (message : String)
  | serverError (message : String)
  | ok (company : Company)
  deriving Repr, DecidableEq

def CreateCompanyResult.isOk : CreateCompanyResult → Bool
  | .ok _ => true
  | _ => false

/-- The role label the handler settles on: the stored enum label whose
lowercase form is `company` when one exists, otherwise `company` itself
(used directly when no enum exists, or after `ALTER TYPE … ADD VALUE`). -/
def resolveRoleValue (enumValues : List String) : String :=
  match enumValues.find? (fun v => jsToLower v = "company") with
  | some v => v
  | none => "company"

/-- The handler's blocked-enum condition: a role enum exists, lacks a
`company` label, and its type name fails the `[A-Za-z0-9_]+` check, so
it cannot be altered at request time. -/
def enumBlocks (enumValues : List String) (enumAlterable : Bool) : Prop :=
  enumValues ≠ [] ∧
    ¬ (enumValues.map jsToLower).contains "company" ∧ ¬ enumAlterable

instance (enumValues : List String) (enumAlterable : Bool) :
    Decidable (enumBlocks enumValues enumAlterable) :=
  inferInstanceAs (Decidable (_ ∧ _ ∧ _))

/-- `SELECT id FROM "User" WHERE LOWER(email) = LOWER($1) LIMIT 1`. -/
def emailTaken (db : DB) (e : String) : Bool :=
  db.users.any (fun u => jsToLower u.email = jsToLower e)

/-- The paired-user creation the company-creation handler runs when
both `email` and `password` are supplied (inside the same transaction;
`dbOrig` is the pre-transaction state that `ROLLBACK` restores). -/
def createCompanyUser (db1 : DB) (company : Company)
    (enumValues : List String) (enumAlterable : Bool)
    (hash : String → String) (failAt : Option Nat) (e pw : String)
    (dbOrig : DB) : CreateCompanyResult × DB :=
  if e = "" ∨ pw = "" then (.ok company, db1)
  else if enumBlocks enumValues enumAlterable then
    (.badRequest
      "Role enum does not include \x22company\x22 and could not be updated automatically.",
      dbOrig)
  else if emailTaken db1 e then (.badRequest "Email already exists.", dbOrig)
  else if failAt = some 1 then (.serverError "Server error.", dbOrig)
  else
    (.ok company,
      { db1 with users := db1.users ++
          [⟨freshUserId db1, e, hash pw, resolveRoleValue enumValues,
            some company.id⟩] })

/-- The `POST /api/admin/companies` handler, on the canonical `"User"`
schema (`email`, `password`, `role`, `companyId` all present, so
`canCreateUser` holds).  `enumValues` are the labels of the database's
role enum (empty when no such enum exists) and `enumAlterable` is
whether its type name passes the handler's `[A-Za-z0-9_]+` check so the
missing `company` label can be added at request time.  `hash` stands for
`bcrypt.hash`.  `failAt = some 0` makes the company `INSERT` throw and
`failAt = some 1` the user `INSERT`; every failure path issues
`ROLLBACK`, so it returns the original state. -/
def createCompany (schema : CompanySchema) (db : DB)
    (enumValues : List String) (enumAlterable : Bool)
    (hash : String → String) (failAt : Option Nat) (body : CompanyBody) :
    CreateCompanyResult × DB :=
  match body.name with
  | none => (.badRequest "name is required.", db)
  | some nm =>
    if nm = "" then (.badRequest "name is required.", db)
    else if failAt = some 0 then (.serverError "Server error.", db)
    else
      let company := mkCompany schema db body (jsTrim nm)
      let db1 : DB := { db with companies := db.companies ++ [company] }
      match body.email, body.password with
      | some e, some pw =>
        createCompanyUser db1 company enumValues enumAlterable hash failAt e pw db
      | _, _ => (.ok company, db1)

/-! ## `PUT /api/admin/companies/:id` -/

/-- The request body of the company-update handler: `none` models a key
absent from the body (`hasOwnProperty` fails), `some v` a present key. -/
structure UpdateBody where
  name : Option String := none
  industry : Option String := none
  location : Option String := none
  website : Option String := none
  email : Option String := none
  phone : Option String := none
  status : Option String := none
  description : Option String := none
  deriving Repr, DecidableEq

/-- A body key becomes a `SET` fragment when the column exists in the
schema and the key is present in the body. -/
def updAssigned (present : Bool) (v : Option String) : Bool :=
  present && v.isSome

/-- Whether the update handler builds at least one `SET` fragment
(`name` is always a column of `"Company"`). -/
def hasAnyAssignment (schema : CompanySchema) (body : UpdateBody) : Bool :=
  updAssigned true body.name ||
  updAssigned schema.industry body.industry ||
  updAssigned schema.location body.location ||
  updAssigned schema.website body.website ||
  updAssigned schema.email body.email ||
  updAssigned schema.phone body.phone ||
  updAssigned schema.status body.status ||
  updAssigned schema.description body.description

/-- The stored value of one optional column after the update: the body
value (empty string normalised to `NULL`) when the key was assigned,
otherwise the previous value. -/
def updField (present : Bool) (v : Option String) (old : Option String) :
    Option String :=
  if updAssigned present v then normalizeField (v.getD "") else old

/-- Outcome of the company-update handler. -/
inductive UpdateCompanyResult
  | badRequest (message : String)
  | notFound (message : String)
  | serverError (message : String)
  | ok (company : Company)
  deriving Repr, DecidableEq

/-- The `PUT /api/admin/companies/:id` handler.  A `name` supplied as
the empty string becomes `SET name = NULL`, which violates the
column's `NOT NULL` constraint and surfaces as a 500 with the state
unchanged. -/
def updateCompany (schema : CompanySchema) (db : DB) (companyId : Nat)
    (body : UpdateBody) : UpdateCompanyResult × DB :=
  if companyId = 0 then (.badRequest "Invalid company id.", db)
  else if ¬ hasAnyAssignment schema body then
    (.badRequest "No fields to update.", db)
  else
    match db.companies.find? (fun c => c.id = companyId) with
    | none => (.notFound "Company not found.", db)
    | some c =>
      if body.name = some "" then
        (.serverError "null value in column name violates not-null constraint", db)
      else
        let c' : Company :=
          { c with
            name := match body.name with
              | some v => v
              | none => c.name
            industry := updField schema.industry body.industry c.industry
            location := updField schema.location body.location c.location
            website := updField schema.website body.website c.website
            email := updField schema.email body.email c.email
            phone := updField schema.phone body.phone c.phone
            status := updField schema.status body.status c.status
            description := updField schema.description body.description c.description }
        let companies' := db.companies.map (fun x => if x.id = companyId then c' else x)
        (.ok c', { db with companies := companies' })

/-! ## Concrete states used by the witnesses -/

/-- A small database used to instantiate the theorems. -/
def dbW : DB :=
  { users := [⟨1, "a@b.c", "HASHpw", "Company", some 2⟩]
    companies := [⟨1, "Acme", none, none, none, none, none, none, none⟩,
                  ⟨2, "Beta", none, none, none, none, none, none, none⟩]
    posts := [⟨1, "T", "C", none, 1, 10⟩]
    comments := [⟨1, "c", 1, 1, 5⟩]
    messages := [⟨1, 1, 2, "hi", 3⟩] }

/-- The stored user of `dbW`. -/
def userW : User := ⟨1, "a@b.c", "HASHpw", "Company", some 2⟩

/-- A concrete stand-in for `bcrypt.compare`: the stored hash is `HASH`
prefixed to the plaintext. -/
def bcryptW (plain hash : String) : Bool := hash = "HASH" ++ plain

/-! ## Claims -/

/-- **C1.** For every login request: if the email (matched
case-insensitively) belongs to a stored user, the supplied password
matches the stored hash, and any supplied role equals the user's role
(the handler compares roles case-insensitively), the handler returns a
token and a reduced user record containing exactly id, email, role and
companyId; if the password does not match or the role mismatches, it
returns status 401 (unauthorized). -/
theorem c1_login_contract (compare : String → String → Bool) (db : DB)
    (email password : String) (role : Option String) (u : User)
    (hemail : normalizeEmail email ≠ "") (hpw : password ≠ "")
    (hfind : findUserByEmail db (normalizeEmail email) = some u) :
    (roleMismatch role u.role = false → compare password u.password = true →
      login compare db email password role =
        .ok "dev-session-token" ⟨u.id, u.email, jsToLower u.role, u.companyId⟩) ∧
    (compare password u.password = false →
      ∃ msg, login compare db email password role = .unauthorized msg) ∧
    (roleMismatch role u.role = true →
      login compare db email password role =
        .unauthorized "Invalid role for this account.") := by
  have hcond : ¬ (normalizeEmail email = "" ∨ password = "") := by
    simp [hemail, hpw]
  refine ⟨fun hrole hcmp => ?_, fun hcmp => ?_, fun hrole => ?_⟩
  · simp [login, hcond, hfind, hrole, hcmp]
  · by_cases hrole : roleMismatch role u.role
    · exact ⟨"Invalid role for this account.", by simp [login, hcond, hfind, hrole]⟩
    · exact ⟨"Invalid credentials.", by simp [login, hcond, hfind, hrole, hcmp]⟩
  · simp [login, hcond, hfind, hrole]

/-- Witness for C1: a concrete successful login. -/
theorem c1_login_contract_witness :
    normalizeEmail " A@B.c " ≠ "" ∧ ("pw" : String) ≠ "" ∧
    findUserByEmail dbW (normalizeEmail " A@B.c ") = some userW ∧
    roleMismatch (some "COMPANY") userW.role = false ∧
    bcryptW "pw" userW.password = true ∧
    login bcryptW dbW " A@B.c " "pw" (some "COMPANY") =
      .ok "dev-session-token" ⟨userW.id, userW.email, jsToLower userW.role, userW.companyId⟩ :=
  ⟨by decide, by decide, by decide, by decide, by decide,
    (c1_login_contract bcryptW dbW " A@B.c " "pw" (some "COMPANY") userW
      (by decide) (by decide) (by decide)).1 (by decide) (by decide)⟩

/-- **C9.** Every successful login returns the same constant token
`dev-session-token`: across any two successful logins the tokens agree,
so the token carries no per-session or per-user information. -/
theorem c9_token_constant (cmp1 cmp2 : String → String → Bool) (db1 db2 : DB)
    (e1 p1 e2 p2 : String) (r1 r2 : Option String) (t1 t2 : String)
    (u1 u2 : SafeUser)
    (h1 : login cmp1 db1 e1 p1 r1 = .ok t1 u1)
    (h2 : login cmp2 db2 e2 p2 r2 = .ok t2 u2) :
    t1 = t2 ∧ t1 = "dev-session-token" := by
  have key : ∀ (cmp : String → String → Bool) (db : DB) (e p : String)
      (r : Option String) (t : String) (u : SafeUser),
      login cmp db e p r = .ok t u → t = "dev-session-token" := by
    intro cmp db e p r t u h
    simp only [login] at h
    split at h
    · exact absurd h (by simp)
    · split at h
      · exact absurd h (by simp)
      · split at h
        · exact absurd h (by simp)
        · split at h
          · exact absurd h (by simp)
          · exact (LoginResult.ok.injEq .. ▸ h).1.symm ▸ rfl
  have k1 := key cmp1 db1 e1 p1 r1 t1 u1 h1
  have k2 := key cmp2 db2 e2 p2 r2 t2 u2 h2
  exact ⟨k1.trans k2.symm, k1⟩

/-- Witness for C9: two concrete successful logins with distinct users. -/
theorem c9_token_constant_witness :
    login bcryptW dbW "a@b.c" "pw" none =
      .ok "dev-session-token" ⟨1, "a@b.c", "company", some 2⟩ ∧
    login bcryptW dbW " A@B.C " "pw" (some "Company") =
      .ok "dev-session-token" ⟨1, "a@b.c", "company", some 2⟩ ∧
    ("dev-session-token" : String) = "dev-session-token" :=
  ⟨by decide, by decide,
    (c9_token_constant bcryptW bcryptW dbW dbW "a@b.c" "pw" " A@B.C " "pw"
      none (some "Company") "dev-session-token" "dev-session-token"
      ⟨1, "a@b.c", "company", some 2⟩ ⟨1, "a@b.c", "company", some 2⟩
      (by decide) (by decide)).1⟩

/-- **C4.** The post-creation handler resolves the effective company
from the explicit `companyId` when present, otherwise via a
`userId → User.companyId` lookup; if neither yields an existing
company, the request fails with a 400 response and no `Post` row is
inserted. -/
theorem c4_create_post_company_resolution (db : DB) (now : Nat) (title : String)
    (content category : Option String) (companyId userId : Option Nat) :
    (∀ c, truthyNat companyId = some c →
      resolveEffectiveCompany db companyId userId = some c) ∧
    (∀ uid u, truthyNat companyId = none → truthyNat userId = some uid →
      db.users.find? (fun x => x.id = uid) = some u →
      resolveEffectiveCompany db companyId userId = u.companyId) ∧
    ((∀ c, truthyNat (resolveEffectiveCompany db companyId userId) = some c →
        db.companies.find? (fun x => x.id = c) = none) →
      ∃ msg, createPost db now title content category companyId userId =
        (.badRequest msg, db)) := by
  refine ⟨?_, ?_, ?_⟩
  · intro c hc
    simp [resolveEffectiveCompany, hc]
  · intro uid u hc hu hf
    simp [resolveEffectiveCompany, hc, hu, hf]
  · intro hnone
    by_cases ht : title = ""
    · exact ⟨"Title is required.", by simp [createPost, ht]⟩
    · cases hres : truthyNat (resolveEffectiveCompany db companyId userId) with
      | none =>
        exact ⟨"Company is required to create a post.", by simp [createPost, ht, hres]⟩
      | some c =>
        exact ⟨"Company not found.", by simp [createPost, ht, hres, hnone c hres]⟩

/-- Witness for C4: creating a post for a nonexistent company id 5
fails with a 400 response and leaves the state unchanged. -/
theorem c4_create_post_company_resolution_witness :
    (∀ c, truthyNat (resolveEffectiveCompany dbW (some 5) none) = some c →
      dbW.companies.find? (fun x => x.id = c) = none) ∧
    ∃ msg, createPost dbW 30 "Hello" none none (some 5) none = (.badRequest msg, dbW) := by
  have h : ∀ c, truthyNat (resolveEffectiveCompany dbW (some 5) none) = some c →
      dbW.companies.find? (fun x => x.id = c) = none := by
    intro c hc
    have h5 : c = 5 := by
      have : truthyNat (resolveEffectiveCompany dbW (some 5) none) = some 5 := by decide
      rw [this] at hc
      exact (Option.some.injEq .. ▸ hc).symm
    rw [h5]
    decide
  exact ⟨h, (c4_create_post_company_resolution dbW 30 "Hello" none none (some 5) none).2.2 h⟩

/-- **C3** (code bug).  The comment-creation handler's author
resolution itself is sound, but before the `INSERT` the handler
evaluates `if (updatedAtColumn)`, a variable declared only in the
sibling `GET` handler; the resulting `ReferenceError` is caught and
turned into a 500 response, so a comment whose author resolves is never
inserted.  Evaluated here on all three schema variants (company-linked,
user-linked and generic author column), plus the 400 case where no
author value resolves. -/
theorem c3_comment_author_reference_error :
    createComment ⟨true, true, true, false, false, false⟩ dbW 1 "hello" (some 1) none =
      (.serverError "updatedAtColumn is not defined", dbW) ∧
    createComment ⟨true, true, false, true, false, false⟩ dbW 1 "hello" none (some 1) =
      (.serverError "updatedAtColumn is not defined", dbW) ∧
    createComment ⟨true, true, false, false, true, false⟩ dbW 1 "hello" (some 1) none =
      (.serverError "updatedAtColumn is not defined", dbW) ∧
    createComment ⟨true, true, false, true, false, false⟩ dbW 1 "hello" (some 1) none =
      (.badRequest "Author is required to comment.", dbW) := by
  refine ⟨?_, ?_, ?_, ?_⟩ <;> decide

/-- A conditional column select never errors: it reads the physical
column only when the schema has it, and substitutes `NULL` otherwise. -/
theorem colSelect_eq (b : Bool) (v : Option String) :
    colSelect b v = .ok (if b then v else none) := by
  cases b <;> rfl

/-- The listing row built for one company, in closed form. -/
theorem companyRowOf_eq (schema : CompanySchema) (db : DB) (c : Company) :
    companyRowOf schema db c = .ok
      ⟨c.id, c.name,
        if schema.industry then c.industry else none,
        if schema.location then c.location else none,
        if schema.website then c.website else none,
        if schema.email then c.email else none,
        if schema.phone then c.phone else none,
        if schema.status then c.status else none,
        if schema.description then c.description else none,
        (db.users.filter (fun u => u.companyId = some c.id)).length⟩ := by
  simp [companyRowOf, colSelect_eq, Except.bind]

/-- A row query whose row reads all succeed returns all rows. -/
theorem mapExcept_ok {α β ε : Type} {f : α → Except ε β} {g : α → β}
    (hf : ∀ a, f a = .ok (g a)) : ∀ l : List α, mapExcept f l = .ok (l.map g)
  | [] => rfl
  | a :: l => by
    simp [mapExcept, hf a, mapExcept_ok hf l, Except.bind]

/-- The closed form of the listing row for company `c`. -/
def companyListRow (schema : CompanySchema) (db : DB) (c : Company) : CompanyListRow :=
  ⟨c.id, c.name,
    if schema.industry then c.industry else none,
    if schema.location then c.location else none,
    if schema.website then c.website else none,
    if schema.email then c.email else none,
    if schema.phone then c.phone else none,
    if schema.status then c.status else none,
    if schema.description then c.description else none,
    (db.users.filter (fun u => u.companyId = some c.id)).length⟩

/-- **C8.** For every schema variant of the `Company` table, the
company listing succeeds without throwing (the conditional SQL never
reads a column absent from the schema) and returns `null` for each
optional column that is absent from the schema. -/
theorem c8_company_listing_schema_safe (schema : CompanySchema) (db : DB) :
    ∃ rows, listCompanies schema db = .ok rows ∧
      ∀ r ∈ rows,
        (schema.industry = false → r.industry = none) ∧
        (schema.location = false → r.location = none) ∧
        (schema.website = false → r.website = none) ∧
        (schema.email = false → r.email = none) ∧
        (schema.phone = false → r.phone = none) ∧
        (schema.status = false → r.status = none) ∧
        (schema.description = false → r.description = none) := by
  refine ⟨List.insertionSort companyRowNameAsc
    (db.companies.map (companyListRow schema db)), ?_, ?_⟩
  · unfold listCompanies
    rw [mapExcept_ok (fun c => companyRowOf_eq schema db c) db.companies]
    rfl
  · intro r hr
    have hr' : r ∈ db.companies.map (companyListRow schema db) :=
      (List.perm_insertionSort companyRowNameAsc _).subset hr
    obtain ⟨c, _, rfl⟩ := List.mem_map.mp hr'
    refine ⟨?_, ?_, ?_, ?_, ?_, ?_, ?_⟩ <;> intro h <;> simp [companyListRow, h]

/-- Witness for C8: on a schema with no optional columns the listing
succeeds with every optional field `null`. -/
theorem c8_company_listing_schema_safe_witness :
    listCompanies ⟨false, false, false, false, false, false, false⟩ dbW =
      .ok [⟨1, "Acme", none, none, none, none, none, none, none, 0⟩,
           ⟨2, "Beta", none, none, none, none, none, none, none, 1⟩] ∧
    (∃ rows, listCompanies ⟨false, false, false, false, false, false, false⟩ dbW = .ok rows ∧
      ∀ r ∈ rows,
        ((false : Bool) = false → r.industry = none) ∧
        ((false : Bool) = false → r.location = none) ∧
        ((false : Bool) = false → r.website = none) ∧
        ((false : Bool) = false → r.email = none) ∧
        ((false : Bool) = false → r.phone = none) ∧
        ((false : Bool) = false → r.status = none) ∧
        ((false : Bool) = false → r.description = none)) :=
  ⟨by decide,
    c8_company_listing_schema_safe ⟨false, false, false, false, false, false, false⟩ dbW⟩

/-- **C7.** The forum listing returns each post joined with its
authoring company together with its comment count, ordered by creation
time descending, and returns at most 100 posts; when at most 100 posts
are stored, every post whose authoring company exists appears. -/
theorem c7_forum_posts_listing (db : DB) :
    (listForumPosts db).length ≤ 100 ∧
    List.Sorted postRowDesc (listForumPosts db) ∧
    (∀ row ∈ listForumPosts db, ∃ p ∈ db.posts, ∃ c ∈ db.companies,
      c.id = p.authorId ∧ row = mkPostRow db p c ∧
      row.comments = (db.comments.filter (fun cm => cm.postId = p.id)).length) ∧
    (db.posts.length ≤ 100 →
      ∀ p ∈ db.posts, ∀ c, db.companies.find? (fun x => x.id = p.authorId) = some c →
        mkPostRow db p c ∈ listForumPosts db) := by
  refine ⟨?_, ?_, ?_, ?_⟩
  · exact List.length_take_le _ _
  · unfold listForumPosts
    exact (List.sorted_insertionSort postRowDesc _).sublist (List.take_sublist _ _)
  · intro row hrow
    unfold listForumPosts at hrow
    have h1 := List.mem_of_mem_take hrow
    have h2 := (List.perm_insertionSort postRowDesc _).subset h1
    obtain ⟨p, hp, hsome⟩ := List.mem_filterMap.mp h2
    obtain ⟨c, hfind, hroweq⟩ := Option.map_eq_some'.mp hsome
    have hpred : c.id = p.authorId := by simpa using List.find?_some hfind
    exact ⟨p, hp, c, List.mem_of_find?_eq_some hfind, hpred, hroweq.symm,
      by rw [← hroweq]; rfl⟩
  · intro h100 p hp c hfind
    unfold listForumPosts
    have hmem : mkPostRow db p c ∈ db.posts.filterMap
        (fun p => (db.companies.find? (fun c => c.id = p.authorId)).map (mkPostRow db p)) :=
      List.mem_filterMap.mpr ⟨p, hp, by rw [hfind]; rfl⟩
    have hperm := List.perm_insertionSort postRowDesc
      (db.posts.filterMap
        (fun p => (db.companies.find? (fun c => c.id = p.authorId)).map (mkPostRow db p)))
    have hlen : (List.insertionSort postRowDesc
        (db.posts.filterMap
          (fun p => (db.companies.find? (fun c => c.id = p.authorId)).map
            (mkPostRow db p)))).length ≤ 100 := by
      rw [hperm.length_eq]
      exact le_trans (List.length_filterMap_le _ _) h100
    rw [List.take_of_length_le hlen]
    exact hperm.mem_iff.mpr hmem

/-- The post stored in `dbW`. -/
def postW : Post := ⟨1, "T", "C", none, 1, 10⟩

/-- The first company stored in `dbW`. -/
def companyW : Company := ⟨1, "Acme", none, none, none, none, none, none, none⟩

/-- Witness for C7: the single stored post appears in the listing. -/
theorem c7_forum_posts_listing_witness :
    dbW.posts.length ≤ 100 ∧ postW ∈ dbW.posts ∧
    dbW.companies.find? (fun x => x.id = postW.authorId) = some companyW ∧
    mkPostRow dbW postW companyW ∈ listForumPosts dbW :=
  ⟨by decide, by decide, by decide,
    (c7_forum_posts_listing dbW).2.2.2 (by decide) postW (by decide) companyW (by decide)⟩

/-- Every stored message's id is bounded by the running maximum. -/
theorem mem_le_foldr_maxMsg {l : List Message} {m : Message} (h : m ∈ l) :
    m.id ≤ l.foldr (fun x acc => max x.id acc) 0 := by
  induction l with
  | nil => cases h
  | cons a t ih =>
    rcases List.mem_cons.mp h with h | h
    · rw [h]; exact le_max_left _ _
    · exact le_trans (ih h) (le_max_right _ _)

/-- The serial id of a fresh message differs from every stored id. -/
theorem freshMessageId_not_mem {db : DB} {m : Message} (h : m ∈ db.messages) :
    m.id ≠ freshMessageId db := by
  have hle := mem_le_foldr_maxMsg h
  unfold freshMessageId
  omega

/-- The joined listing row keeps the message's id. -/
theorem joinMessage_id {db : DB} {m : Message} {r : MessageRow}
    (h : joinMessage db m = some r) : r.id = m.id := by
  unfold joinMessage at h
  obtain ⟨cs, hcs, h⟩ := Option.bind_eq_some.mp h
  obtain ⟨cr, hcr, h⟩ := Option.bind_eq_some.mp h
  cases h
  rfl

/-- The message row inserted by a successful send. -/
def newMessage (db : DB) (now A B : Nat) (content : String) : Message :=
  ⟨freshMessageId db, A, B, content, now⟩

/-- The database state after a successful send. -/
def dbAfterSend (db : DB) (now A B : Nat) (content : String) : DB :=
  { db with messages := db.messages ++ [newMessage db now A B content] }

/-- **C5.** After a message is successfully sent from company `A` to
company `B`, listing messages for either company returns the row of
that message exactly once, and every returned listing is ordered
ascending by creation time. -/
theorem c5_message_roundtrip (db : DB) (now A B : Nat) (content : String)
    (hA : A ≠ 0) (hB : B ≠ 0) (hc : content ≠ "")
    (hAex : ∃ ca ∈ db.companies, ca.id = A)
    (hBex : ∃ cb ∈ db.companies, cb.id = B) :
    sendMessage db now (some A) (some B) content =
      (.ok (newMessage db now A B content), dbAfterSend db now A B content) ∧
    ∀ cid, cid = A ∨ cid = B →
      ∃ mrow rows,
        joinMessage (dbAfterSend db now A B content) (newMessage db now A B content) =
          some mrow ∧
        listMessages (dbAfterSend db now A B content) cid = .ok rows ∧
        rows.count mrow = 1 ∧ List.Sorted msgRowAsc rows := by
  refine ⟨by simp [sendMessage, truthyNat, hA, hB, hc, newMessage, dbAfterSend], ?_⟩
  intro cid hcid
  have hcid0 : cid ≠ 0 := by rcases hcid with rfl | rfl <;> assumption
  obtain ⟨ca, hca, hcaid⟩ := hAex
  obtain ⟨cb, hcb, hcbid⟩ := hBex
  obtain ⟨cs, hcs⟩ := Option.isSome_iff_exists.mp
    (List.find?_isSome.mpr ⟨ca, hca, by simp [hcaid]⟩ :
      (db.companies.find? (fun c => c.id = A)).isSome)
  obtain ⟨cr, hcr⟩ := Option.isSome_iff_exists.mp
    (List.find?_isSome.mpr ⟨cb, hcb, by simp [hcbid]⟩ :
      (db.companies.find? (fun c => c.id = B)).isSome)
  have hjoin :
      joinMessage (dbAfterSend db now A B content) (newMessage db now A B content) =
      some ⟨freshMessageId db, content, now, A, B, cs.name, cr.name⟩ := by
    simp [joinMessage, dbAfterSend, newMessage, hcs, hcr]
  refine ⟨⟨freshMessageId db, content, now, A, B, cs.name, cr.name⟩,
    List.insertionSort msgRowAsc
      (((dbAfterSend db now A B content).messages.filter
        (fun m => m.senderCompanyId = cid ∨ m.receiverCompanyId = cid)).filterMap
        (joinMessage (dbAfterSend db now A B content))),
    hjoin, ?_, ?_, List.sorted_insertionSort msgRowAsc _⟩
  · unfold listMessages
    rw [if_neg hcid0]
  · rw [(List.perm_insertionSort msgRowAsc _).count_eq]
    have hmsgs : (dbAfterSend db now A B content).messages =
        db.messages ++ [newMessage db now A B content] := rfl
    rw [hmsgs, List.filter_append]
    have hpredm : ([newMessage db now A B content] : List Message).filter
        (fun m => m.senderCompanyId = cid ∨ m.receiverCompanyId = cid) =
        [newMessage db now A B content] := by
      rcases hcid with rfl | rfl <;> simp [newMessage]
    rw [hpredm, List.filterMap_append, List.count_append]
    have hsingle : List.filterMap (joinMessage (dbAfterSend db now A B content))
        [newMessage db now A B content] =
        [⟨freshMessageId db, content, now, A, B, cs.name, cr.name⟩] := by
      simp [hjoin]
    rw [hsingle]
    have hzero : (List.filterMap (joinMessage (dbAfterSend db now A B content))
        (db.messages.filter
          (fun m => m.senderCompanyId = cid ∨ m.receiverCompanyId = cid))).count
        (⟨freshMessageId db, content, now, A, B, cs.name, cr.name⟩ : MessageRow) = 0 := by
      rw [List.count_eq_zero]
      intro hmem
      obtain ⟨mx, hmx, hjm⟩ := List.mem_filterMap.mp hmem
      have hid : (⟨freshMessageId db, content, now, A, B, cs.name, cr.name⟩ :
          MessageRow).id = mx.id := joinMessage_id hjm
      exact freshMessageId_not_mem (List.mem_of_mem_filter hmx) hid.symm
    rw [hzero]
    simp

/-- Witness for C5: a concrete send between the two stored companies. -/
theorem c5_message_roundtrip_witness :
    (1 : Nat) ≠ 0 ∧ (2 : Nat) ≠ 0 ∧ ("yo" : String) ≠ "" ∧
    (∃ ca ∈ dbW.companies, ca.id = 1) ∧ (∃ cb ∈ dbW.companies, cb.id = 2) ∧
    (∀ cid, cid = 1 ∨ cid = 2 →
      ∃ mrow rows,
        joinMessage (dbAfterSend dbW 20 1 2 "yo") (newMessage dbW 20 1 2 "yo") = some mrow ∧
        listMessages (dbAfterSend dbW 20 1 2 "yo") cid = .ok rows ∧
        rows.count mrow = 1 ∧ List.Sorted msgRowAsc rows) :=
  ⟨by decide, by decide, by decide, by decide, by decide,
    (c5_message_roundtrip dbW 20 1 2 "yo" (by decide) (by decide) (by decide)
      (by decide) (by decide)).2⟩

/-- Closed form of a successful company deletion: each table is left
with exactly the rows the issued `DELETE`s keep. -/
theorem deleteCompany_success (db : DB) (cid : Nat) (h0 : cid ≠ 0)
    (hany : (db.companies.any fun c => c.id = cid) = true) :
    deleteCompany db cid none =
      (.ok cid,
        { users := db.users.filter (fun u => u.companyId ≠ some cid)
          companies := db.companies.filter (fun c => c.id ≠ cid)
          posts := db.posts.filter (fun p => p.authorId ≠ cid)
          comments := (db.comments.filter (fun c => c.authorId ≠ cid)).filter
            (fun c => ¬ db.posts.any (fun p => p.authorId = cid ∧ p.id = c.postId))
          messages := db.messages.filter
            (fun m => ¬ (m.senderCompanyId = cid ∨ m.receiverCompanyId = cid)) },
        [.messages, .commentsByAuthor, .commentsByPost, .posts, .users, .company]) := by
  unfold deleteCompany
  simp [h0, hany]

/-- **C2.** After a successful delete of a company, no message with it
as sender or receiver, no comment authored by it, no comment on one of
its posts, no post authored by it and no user belonging to it remains,
and the `DELETE`s are issued in the order messages, then comments, then
posts, then users, then the company row. -/
theorem c2_delete_company_cleanup (db : DB) (cid : Nat)
    (h0 : cid ≠ 0) (hex : ∃ c ∈ db.companies, c.id = cid) :
    (deleteCompany db cid none).1 = .ok cid ∧
    (deleteCompany db cid none).2.2 =
      [.messages, .commentsByAuthor, .commentsByPost, .posts, .users, .company] ∧
    List.Sorted (fun a b => delRank a ≤ delRank b) (deleteCompany db cid none).2.2 ∧
    (∀ m ∈ (deleteCompany db cid none).2.1.messages,
      ¬ (m.senderCompanyId = cid ∨ m.receiverCompanyId = cid)) ∧
    (∀ c ∈ (deleteCompany db cid none).2.1.comments,
      c.authorId ≠ cid ∧ ¬ ∃ p ∈ db.posts, p.authorId = cid ∧ p.id = c.postId) ∧
    (∀ p ∈ (deleteCompany db cid none).2.1.posts, p.authorId ≠ cid) ∧
    (∀ u ∈ (deleteCompany db cid none).2.1.users, u.companyId ≠ some cid) ∧
    (∀ c ∈ (deleteCompany db cid none).2.1.companies, c.id ≠ cid) := by
  obtain ⟨c0, hc0, hc0id⟩ := hex
  have hany : (db.companies.any fun c => c.id = cid) = true :=
    List.any_eq_true.mpr ⟨c0, hc0, by simp [hc0id]⟩
  rw [deleteCompany_success db cid h0 hany]
  refine ⟨rfl, rfl, ?_, ?_, ?_, ?_, ?_, ?_⟩
  · show List.Sorted (fun a b => delRank a ≤ delRank b)
      [DelStep.messages, DelStep.commentsByAuthor, DelStep.commentsByPost,
        DelStep.posts, DelStep.users, DelStep.company]
    decide
  · intro m hm
    simpa using (List.mem_filter.mp hm).2
  · intro c hc
    refine ⟨?_, ?_⟩
    · simpa using (List.mem_filter.mp (List.mem_filter.mp hc).1).2
    · simpa using (List.mem_filter.mp hc).2
  · intro p hp
    simpa using (List.mem_filter.mp hp).2
  · intro u hu
    simpa using (List.mem_filter.mp hu).2
  · intro c hc
    simpa using (List.mem_filter.mp hc).2

/-- Witness for C2: deleting the stored company 1. -/
theorem c2_delete_company_cleanup_witness :
    (1 : Nat) ≠ 0 ∧ (∃ c ∈ dbW.companies, c.id = 1) ∧
    (deleteCompany dbW 1 none).1 = .ok 1 ∧
    (deleteCompany dbW 1 none).2.2 =
      [.messages, .commentsByAuthor, .commentsByPost, .posts, .users, .company] :=
  ⟨by decide, by decide,
    (c2_delete_company_cleanup dbW 1 (by decide) (by decide)).1,
    (c2_delete_company_cleanup dbW 1 (by decide) (by decide)).2.1⟩

/-- A failing paired-user step always returns the rolled-back original
state. -/
theorem createCompanyUser_fail {db1 : DB} {company : Company}
    {enumValues : List String} {enumAlterable : Bool} {hash : String → String}
    {failAt : Option Nat} {e pw : String} {dbOrig : DB}
    (h : (createCompanyUser db1 company enumValues enumAlterable hash failAt
        e pw dbOrig).1.isOk = false) :
    (createCompanyUser db1 company enumValues enumAlterable hash failAt
      e pw dbOrig).2 = dbOrig := by
  unfold createCompanyUser at h ⊢
  by_cases hep : e = "" ∨ pw = ""
  · exfalso; simp [hep, CreateCompanyResult.isOk] at h
  · by_cases henum : enumBlocks enumValues enumAlterable
    · simp [hep, henum]
    · by_cases hdup : emailTaken db1 e = true
      · simp [hep, henum, hdup]
      · by_cases hf1 : failAt = some 1
        · simp [hep, henum, hdup, hf1]
        · exfalso; simp [hep, henum, hdup, hf1, CreateCompanyResult.isOk] at h

/-- The canonical `"Company"` schema with every optional column. -/
def schemaFull : CompanySchema := ⟨true, true, true, true, true, true, true⟩

/-- **C6.** The company create and delete handlers wrap their
multi-table writes in one transaction: whenever the response is not a
success, `ROLLBACK` has run and the stored state is unchanged — no
partially created company/user pair and no partially deleted
dependents. -/
theorem c6_admin_transaction_atomicity (schema : CompanySchema) (db : DB)
    (enumValues : List String) (enumAlterable : Bool) (hash : String → String)
    (failC : Option Nat) (body : CompanyBody) (companyId : Nat) (failD : Option Nat) :
    ((createCompany schema db enumValues enumAlterable hash failC body).1.isOk = false →
      (createCompany schema db enumValues enumAlterable hash failC body).2 = db) ∧
    ((deleteCompany db companyId failD).1.isOk = false →
      (deleteCompany db companyId failD).2.1 = db) := by
  constructor
  · cases hbn : body.name with
    | none => intro _; simp [createCompany, hbn]
    | some nm =>
      by_cases hnm : nm = ""
      · intro _; simp [createCompany, hbn, hnm]
      · by_cases hf0 : failC = some 0
        · intro _; simp [createCompany, hbn, hnm, hf0]
        · cases hbe : body.email with
          | none =>
            intro h; exfalso
            simp [createCompany, hbn, hnm, hf0, hbe, CreateCompanyResult.isOk] at h
          | some e =>
            cases hbp : body.password with
            | none =>
              intro h; exfalso
              simp [createCompany, hbn, hnm, hf0, hbe, hbp, CreateCompanyResult.isOk] at h
            | some pw =>
              intro h
              have hred : createCompany schema db enumValues enumAlterable hash failC body =
                  createCompanyUser
                    { db with companies :=
                        db.companies ++ [mkCompany schema db body (jsTrim nm)] }
                    (mkCompany schema db body (jsTrim nm)) enumValues enumAlterable
                    hash failC e pw db := by
                simp [createCompany, hbn, hnm, hf0, hbe, hbp]
              rw [hred] at h ⊢
              exact createCompanyUser_fail h
  · by_cases h0 : companyId = 0
    · intro _; simp [deleteCompany, h0]
    · by_cases hf0 : failD = some 0
      · intro _; simp [deleteCompany, h0, hf0]
      · by_cases hf1 : failD = some 1
        · intro _; simp [deleteCompany, h0, hf0, hf1]
        · by_cases hf2 : failD = some 2
          · intro _; simp [deleteCompany, h0, hf0, hf1, hf2]
          · by_cases hf3 : failD = some 3
            · intro _; simp [deleteCompany, h0, hf0, hf1, hf2, hf3]
            · by_cases hf4 : failD = some 4
              · intro _; simp [deleteCompany, h0, hf0, hf1, hf2, hf3, hf4]
              · by_cases hf5 : failD = some 5
                · intro _; simp [deleteCompany, h0, hf0, hf1, hf2, hf3, hf4, hf5]
                · by_cases hany : (db.companies.any fun c => c.id = companyId) = true
                  · intro h; exfalso
                    simp [deleteCompany, h0, hf0, hf1, hf2, hf3, hf4, hf5, hany,
                      DeleteCompanyResult.isOk] at h
                  · intro _
                    simp [deleteCompany, h0, hf0, hf1, hf2, hf3, hf4, hf5, hany]

/-- Witness for C6: a create with a missing name and a delete of a
nonexistent company both fail and leave the state untouched. -/
theorem c6_admin_transaction_atomicity_witness :
    ((createCompany schemaFull dbW [] true (fun s => s) none {}).1.isOk = false ∧
      (createCompany schemaFull dbW [] true (fun s => s) none {}).2 = dbW) ∧
    ((deleteCompany dbW 99 none).1.isOk = false ∧
      (deleteCompany dbW 99 none).2.1 = dbW) :=
  ⟨⟨by decide,
    (c6_admin_transaction_atomicity schemaFull dbW [] true (fun s => s) none {} 99 none).1
      (by decide)⟩,
   ⟨by decide,
    (c6_admin_transaction_atomicity schemaFull dbW [] true (fun s => s) none {} 99 none).2
      (by decide)⟩⟩

/-- A body key that is absent, or whose column is missing, produces no
`SET` fragment. -/
theorem updAssigned_false {pres : Bool} {v : Option String}
    (h : v.isSome = true → pres = false) : updAssigned pres v = false := by
  cases hv : v.isSome
  · simp [updAssigned, hv]
  · simp [updAssigned, h hv]

/-- An assigned column supplied as the empty string is stored as `NULL`. -/
theorem updField_empty (old : Option String) :
    updField true (some "") old = none := rfl

/-- An inserted column supplied as the empty string is stored as `NULL`. -/
theorem insertField_empty (pres : Bool) : insertField pres (some "") = none := by
  cases pres <;> rfl

/-- A successful paired-user step returns the company row inserted by
the surrounding handler. -/
theorem createCompanyUser_ok {db1 : DB} {company : Company}
    {enumValues : List String} {enumAlterable : Bool} {hash : String → String}
    {failAt : Option Nat} {e pw : String} {dbOrig : DB} {comp : Company} {db2 : DB}
    (h : createCompanyUser db1 company enumValues enumAlterable hash failAt
        e pw dbOrig = (.ok comp, db2)) : comp = company := by
  unfold createCompanyUser at h
  by_cases hep : e = "" ∨ pw = ""
  · rw [if_pos hep] at h
    injection h with h1 h2
    injection h1 with h3
    exact h3.symm
  · rw [if_neg hep] at h
    by_cases henum : enumBlocks enumValues enumAlterable
    · rw [if_pos henum] at h
      injection h with h1 h2
      exact absurd h1 (by simp)
    · rw [if_neg henum] at h
      by_cases hdup : emailTaken db1 e = true
      · rw [if_pos hdup] at h
        injection h with h1 h2
        exact absurd h1 (by simp)
      · rw [if_neg hdup] at h
        by_cases hf1 : failAt = some 1
        · rw [if_pos hf1] at h
          injection h with h1 h2
          exact absurd h1 (by simp)
        · rw [if_neg hf1] at h
          injection h with h1 h2
          injection h1 with h3
          exact h3.symm

/-- **C10.** A company-update request whose body has no key matching an
existing `Company` column gets a 400 response with message
`No fields to update.` and leaves the state unchanged; and in any
company create or update, a field supplied as the empty string is
stored as `NULL`. -/
theorem c10_empty_string_normalization (schema : CompanySchema) (db : DB)
    (companyId : Nat) (body : UpdateBody) (cbody : CompanyBody)
    (enumValues : List String) (enumAlterable : Bool) (hash : String → String)
    (failAt : Option Nat) :
    (companyId ≠ 0 →
      body.name = none →
      (body.industry.isSome = true → schema.industry = false) →
      (body.location.isSome = true → schema.location = false) →
      (body.website.isSome = true → schema.website = false) →
      (body.email.isSome = true → schema.email = false) →
      (body.phone.isSome = true → schema.phone = false) →
      (body.status.isSome = true → schema.status = false) →
      (body.description.isSome = true → schema.description = false) →
      updateCompany schema db companyId body = (.badRequest "No fields to update.", db)) ∧
    (∀ c' db2, updateCompany schema db companyId body = (.ok c', db2) →
      (body.industry = some "" → schema.industry = true → c'.industry = none) ∧
      (body.location = some "" → schema.location = true → c'.location = none) ∧
      (body.website = some "" → schema.website = true → c'.website = none) ∧
      (body.email = some "" → schema.email = true → c'.email = none) ∧
      (body.phone = some "" → schema.phone = true → c'.phone = none) ∧
      (body.status = some "" → schema.status = true → c'.status = none) ∧
      (body.description = some "" → schema.description = true → c'.description = none)) ∧
    (∀ comp db2, createCompany schema db enumValues enumAlterable hash failAt cbody =
        (.ok comp, db2) →
      (cbody.industry = some "" → comp.industry = none) ∧
      (cbody.location = some "" → comp.location = none) ∧
      (cbody.website = some "" → comp.website = none) ∧
      (cbody.email = some "" → comp.email = none) ∧
      (cbody.phone = some "" → comp.phone = none) ∧
      (cbody.status = some "" → comp.status = none) ∧
      (cbody.description = some "" → comp.description = none)) := by
  refine ⟨?_, ?_, ?_⟩
  · intro h0 hn h1 h2 h3 h4 h5 h6 h7
    have e0 : updAssigned true body.name = false := by rw [hn]; rfl
    have hassign : hasAnyAssignment schema body = false := by
      unfold hasAnyAssignment
      rw [e0, updAssigned_false h1, updAssigned_false h2, updAssigned_false h3,
        updAssigned_false h4, updAssigned_false h5, updAssigned_false h6,
        updAssigned_false h7]
      rfl
    simp [updateCompany, h0, hassign]
  · intro c' db2 h
    unfold updateCompany at h
    by_cases h0 : companyId = 0
    · rw [if_pos h0] at h
      exact absurd (Prod.mk.injEq .. ▸ h).1 (by simp)
    · rw [if_neg h0] at h
      by_cases hass : hasAnyAssignment schema body = true
      · rw [if_neg (by simp [hass])] at h
        cases hfind : db.companies.find? (fun c => c.id = companyId) with
        | none =>
          simp only [hfind] at h
          exact absurd (Prod.mk.injEq .. ▸ h).1 (by simp)
        | some c =>
          by_cases hne : body.name = some ""
          · simp only [hfind, hne, if_true, reduceIte] at h
            exact absurd (Prod.mk.injEq .. ▸ h).1 (by simp)
          · simp only [hfind, hne, if_false, reduceIte] at h
            injection h with h1 h2
            injection h1 with hc
            refine ⟨?_, ?_, ?_, ?_, ?_, ?_, ?_⟩ <;> intro hb hs <;>
              rw [← hc] <;> simp [updField, updAssigned, hb, hs, normalizeField]
      · rw [if_pos (by simp [hass])] at h
        exact absurd (Prod.mk.injEq .. ▸ h).1 (by simp)
  · intro comp db2 h
    have hcomp : ∃ nm, cbody.name = some nm ∧ comp = mkCompany schema db cbody (jsTrim nm) := by
      unfold createCompany at h
      cases hbn : cbody.name with
      | none =>
        simp only [hbn] at h
        exact absurd (Prod.mk.injEq .. ▸ h).1 (by simp)
      | some nm =>
        simp only [hbn] at h
        by_cases hnm : nm = ""
        · rw [if_pos hnm] at h
          exact absurd (Prod.mk.injEq .. ▸ h).1 (by simp)
        · rw [if_neg hnm] at h
          by_cases hf0 : failAt = some 0
          · rw [if_pos hf0] at h
            exact absurd (Prod.mk.injEq .. ▸ h).1 (by simp)
          · rw [if_neg hf0] at h
            cases hbe : cbody.email with
            | none =>
              simp only [hbe] at h
              injection h with h1 h2
              injection h1 with h3
              exact ⟨nm, rfl, h3.symm⟩
            | some e =>
              simp only [hbe] at h
              cases hbp : cbody.password with
              | none =>
                simp only [hbp] at h
                injection h with h1 h2
                injection h1 with h3
                exact ⟨nm, rfl, h3.symm⟩
              | some pw =>
                simp only [hbp] at h
                exact ⟨nm, rfl, createCompanyUser_ok h⟩
    obtain ⟨nm, hnm, rfl⟩ := hcomp
    refine ⟨?_, ?_, ?_, ?_, ?_, ?_, ?_⟩ <;> intro hb <;>
      simp [mkCompany, hb, insertField_empty]

/-- Witness for C10: a body whose only key targets a column absent from
the schema yields the 400, and an update supplying `industry` as the
empty string stores `NULL`. -/
theorem c10_empty_string_normalization_witness :
    updateCompany ⟨false, false, false, false, false, false, false⟩ dbW 1
      { industry := some "x" } = (.badRequest "No fields to update.", dbW) ∧
    (∀ c' db2, updateCompany schemaFull dbW 1 { industry := some "" } = (.ok c', db2) →
      c'.industry = none) ∧
    updateCompany schemaFull dbW 1 { industry := some "" } =
      (.ok ⟨1, "Acme", none, none, none, none, none, none, none⟩,
        { dbW with companies :=
            [⟨1, "Acme", none, none, none, none, none, none, none⟩,
             ⟨2, "Beta", none, none, none, none, none, none, none⟩] }) := by
  refine ⟨?_, ?_, by decide⟩
  · exact (c10_empty_string_normalization ⟨false, false, false, false, false, false, false⟩
      dbW 1 { industry := some "x" } {} [] true (fun s => s) none).1
      (by decide) (by decide) (by decide) (by decide) (by decide) (by decide)
      (by decide) (by decide) (by decide)
  · intro c' db2 h
    exact ((c10_empty_string_normalization schemaFull dbW 1 { industry := some "" } {}
      [] true (fun s => s) none).2.1 c' db2 h).1 (by decide) (by decide)

end CyberParc
